import Mathlib

/-!
Verification of the Context-Api repository's todo store, persistence layer,
theme context and login component against its specification.

The todo store operates on an ordered list of todo records (spec §3).
Persistence is a single localStorage slot holding the JSON-serialized list,
written after every mutation and read once at startup
(localStorage/src/App.jsx, quoted in the README):

  useEffect(() => {
    const result = JSON.parse(localStorage.getItem("todos"));
    if (result && result.length > 0) { setTodos(result); }
  }, []);
  useEffect(() => {
    localStorage.setItem("todos", JSON.stringify(todos));
  }, [todos]);
-/

/-- Todo record, spec §3: `{ id: integer (creation timestamp), text: string,
isCompleted: boolean }`. The `TodoContext` default sample names the text field
`msg`; the spec fixes `text` and notes the naming is not contractual. -/
structure Todo where
  id : Nat
  text : String
  isCompleted : Bool
deriving DecidableEq, Repr

/-- Non-id fields of a todo record, the `patch` argument of `update`. -/
structure Patch where
  text : String
  isCompleted : Bool
deriving DecidableEq, Repr

/-- Modelled from the spec: the provider component `localStorage/src/App.jsx`
that implements `addTodo` is not among the sources (only the `TodoContext`
declaration with no-op defaults and the README description are). Spec §4.1:
"constructs a new record with id = current time, text = text,
isCompleted = false; appends to the end of the list". `now` is the value of
`Date.now()` at the call. -/
def addTodo (now : Nat) (t : String) (L : List Todo) : List Todo :=
  L ++ [{ id := now, text := t, isCompleted := false }]

/-- Modelled from the spec: the provider implementing `updateTodo` is not among
the sources. Spec §4.1: "replaces the record whose id matches with a new record
with the same id and the other fields taken from patch; if no record matches,
the list is unchanged". -/
def updateTodo (X : Nat) (p : Patch) (L : List Todo) : List Todo :=
  L.map fun r =>
    if r.id = X then { id := r.id, text := p.text, isCompleted := p.isCompleted } else r

/-- Modelled from the spec: the provider implementing `deleteTodo` is not among
the sources. Spec §4.1: "removes the record whose id matches; if none matches,
the list is unchanged"; README: "deleteTodo() filters it out from the array". -/
def deleteTodo (X : Nat) (L : List Todo) : List Todo :=
  L.filter fun r => r.id != X

/-- Modelled from the spec: the provider implementing `completeTodo` (the
spec's `toggleComplete`) is not among the sources. Spec §4.1: "flips
isCompleted on the matching record; leaves all other fields untouched". -/
def completeTodo (X : Nat) (L : List Todo) : List Todo :=
  L.map fun r => if r.id = X then { r with isCompleted := !r.isCompleted } else r

/-- JSON values, the results `JSON.parse` can produce. Numbers are restricted
to integers: ids are `Date.now()` timestamps and no other numbers occur. -/
inductive JVal where
  | null : JVal
  | jbool : Bool → JVal
  | jnum : Int → JVal
  | jstr : String → JVal
  | jarr : List JVal → JVal
  | jobj : List (String × JVal) → JVal
deriving Repr

/-- JavaScript truthiness of a parsed JSON value, as tested by
`if (result && ...)`. Arrays and objects are always truthy, even when empty. -/
def truthy : JVal → Bool
  | .null => false
  | .jbool b => b
  | .jnum n => n != 0
  | .jstr s => s != ""
  | .jarr _ => true
  | .jobj _ => true

/-- JavaScript test `result.length > 0`. Arrays and strings have a numeric
`length` property; on the other JSON values `length` is `undefined` and
`undefined > 0` evaluates to false. -/
def jsLengthGtZero : JVal → Bool
  | .jarr xs => decide (0 < xs.length)
  | .jstr s => decide (0 < s.length)
  | _ => false

/-- Contents of the persisted `"todos"` slot, classified by the outcome of
`JSON.parse(localStorage.getItem("todos"))`: the key may be absent
(`getItem` returns `null`), hold text that is not valid JSON (`JSON.parse`
throws a SyntaxError), or hold text parsing to a JSON value. -/
inductive Slot where
  | absent : Slot
  | invalid : Slot
  | valid : JVal → Slot

/-- Result of `JSON.parse(localStorage.getItem("todos"))`. When the key is
absent, `JSON.parse(null)` coerces `null` to the string `"null"`, which parses
to the JSON value `null`. Invalid stored text makes `JSON.parse` throw; the
surrounding `useEffect` has no try/catch, so the exception propagates. -/
def parseSlot : Slot → Except Unit JVal
  | .absent => .ok .null
  | .invalid => .error ()
  | .valid v => .ok v

/-- The startup load effect from `localStorage/src/App.jsx`: parse the slot,
and install the result over the initial state `[]` only when it is truthy with
`length > 0`; otherwise the state keeps its initial value, the empty array. -/
def loadTodos (s : Slot) : Except Unit JVal :=
  match parseSlot s with
  | .error e => .error e
  | .ok result => .ok (if truthy result && jsLengthGtZero result then result else .jarr [])

/-- JSON encoding of one todo record, as produced by `JSON.stringify`. -/
def encodeTodo (r : Todo) : JVal :=
  .jobj [("id", .jnum r.id), ("text", .jstr r.text), ("isCompleted", .jbool r.isCompleted)]

/-- JSON encoding of a todo list: `JSON.stringify(todos)` yields the array of
encoded records. -/
def encodeTodos (L : List Todo) : JVal :=
  .jarr (L.map encodeTodo)

/-- The save effect from `localStorage/src/App.jsx`:
`localStorage.setItem("todos", JSON.stringify(todos))` leaves the slot holding
valid JSON text encoding the list. -/
def saveTodos (L : List Todo) : Slot :=
  .valid (encodeTodos L)

/-- Reads a JSON value back as a todo record when it has exactly the shape
`encodeTodo` produces. Bridges the untyped parsed value to the typed record
so that value-equality of lists can be stated. -/
def decodeTodo : JVal → Option Todo
  | .jobj [("id", .jnum i), ("text", .jstr t), ("isCompleted", .jbool b)] =>
      if 0 ≤ i then some { id := i.toNat, text := t, isCompleted := b } else none
  | _ => none

/-- Decodes a list of JSON values elementwise, failing if any element fails. -/
def decodeList : List JVal → Option (List Todo)
  | [] => some []
  | v :: vs =>
      match decodeTodo v, decodeList vs with
      | some r, some rs => some (r :: rs)
      | _, _ => none

/-- Reads a parsed JSON value back as a todo list: it must be an array whose
elements all decode as todo records. -/
def decodeTodos : JVal → Option (List Todo)
  | .jarr xs => decodeList xs
  | _ => none

/-- Default value of the theme context, `themeSwitcher/src/context/theme.js`:
`createContext({ themeMode: "loght", darkMode: ()=>{}, lightMode: ()=>{} })`.
The callbacks are no-ops and carry no data, so only `themeMode` is modelled. -/
structure ThemeCtx where
  themeMode : String
deriving DecidableEq, Repr

/-- The default theme context value from `theme.js`. -/
def themeContextDefault : ThemeCtx :=
  { themeMode := "loght" }

/-- The `checked` attribute computed by `ThemeBtn`:
`checked={themeMode === "dark"}`. -/
def themeBtnChecked (c : ThemeCtx) : Bool :=
  c.themeMode == "dark"

/-- Local state of the `Login` component: the two controlled inputs. -/
structure LoginState where
  username : String
  password : String
deriving DecidableEq, Repr

/-- The value `Login.handleSubmit` passes to `setUser`: `setUser(username)`. -/
def handleSubmit (s : LoginState) : String :=
  s.username

/-- Sample todo list with pairwise-distinct ids, used to instantiate theorems
at concrete inputs. -/
def sampleTodos : List Todo :=
  [{ id := 1, text := "a", isCompleted := false },
   { id := 2, text := "b", isCompleted := true }]

/-- Sample patch used to instantiate theorems at concrete inputs. -/
def samplePatch : Patch :=
  { text := "x", isCompleted := true }

/-- Mapping a record-transforming function that never changes the `id` field
leaves the list of ids unchanged. -/
theorem ids_map_of_id_preserving (L : List Todo) (f : Todo → Todo)
    (h : ∀ r, (f r).id = r.id) : (L.map f).map Todo.id = L.map Todo.id := by
  induction L with
  | nil => rfl
  | cons a l ih => simp [h a, ih]

/-- Mapping a conditional replacement whose trigger id is absent from the list
is the identity. -/
theorem map_ite_id_of_not_mem (L : List Todo) (X : Nat) (f : Todo → Todo)
    (hX : X ∉ L.map Todo.id) :
    (L.map fun r => if r.id = X then f r else r) = L := by
  induction L with
  | nil => rfl
  | cons a l ih =>
      simp only [List.map_cons, List.mem_cons] at hX
      push_neg at hX
      obtain ⟨h1, h2⟩ := hX
      have ha : ¬ (a.id = X) := fun h => h1 h.symm
      simp [ha, ih h2]

/-- Deleting an id that is absent from the list is the identity. -/
theorem deleteTodo_of_not_mem (L : List Todo) (X : Nat)
    (hX : X ∉ L.map Todo.id) : deleteTodo X L = L := by
  unfold deleteTodo
  apply List.filter_eq_self.mpr
  intro r hr
  have : r.id ≠ X := fun h => hX (h ▸ List.mem_map_of_mem Todo.id hr)
  simpa [bne_iff_ne] using this

/-- Under distinct ids, deleting a present id removes exactly one record. -/
theorem deleteTodo_length_of_mem (L : List Todo) (X : Nat)
    (hnd : (L.map Todo.id).Nodup) (hX : X ∈ L.map Todo.id) :
    (deleteTodo X L).length = L.length - 1 := by
  induction L with
  | nil => simp at hX
  | cons a l ih =>
      simp only [List.map_cons, List.nodup_cons] at hnd
      obtain ⟨hna, hnd'⟩ := hnd
      by_cases hax : a.id = X
      · have hXl : X ∉ l.map Todo.id := hax ▸ hna
        have hdrop : deleteTodo X (a :: l) = deleteTodo X l := by
          simp [deleteTodo, hax]
        rw [hdrop, deleteTodo_of_not_mem l X hXl]
        simp
      · have hX' : X = a.id ∨ X ∈ l.map Todo.id := by
          simp only [List.map_cons] at hX
          exact List.mem_cons.mp hX
        have hXl : X ∈ l.map Todo.id := by
          rcases hX' with h | h
          · exact absurd h.symm hax
          · exact h
        have hkeep : deleteTodo X (a :: l) = a :: deleteTodo X l := by
          simp [deleteTodo, bne_iff_ne, hax]
        have hl : 0 < l.length := by
          cases l with
          | nil => simp at hXl
          | cons b m => simp
        rw [hkeep]
        simp only [List.length_cons, ih hnd' hXl]
        omega

/-- Round trip of a single record through JSON encoding. -/
theorem decodeTodo_encodeTodo (r : Todo) : decodeTodo (encodeTodo r) = some r := by
  simp [decodeTodo, encodeTodo]

/-- Round trip of a record list through elementwise JSON encoding. -/
theorem decodeList_map_encodeTodo (L : List Todo) :
    decodeList (L.map encodeTodo) = some L := by
  induction L with
  | nil => rfl
  | cons a l ih => simp [decodeList, decodeTodo_encodeTodo, ih]

/-- C1 counterexample: on a persisted value that is not valid JSON, the
startup load throws (JSON.parse has no surrounding try/catch) instead of
returning the empty todo list, so loading is not total as claimed. -/
theorem loadTodos_invalid_fails :
    loadTodos Slot.invalid = Except.error () ∧
    loadTodos Slot.invalid ≠ Except.ok (JVal.jarr []) :=
  ⟨rfl, fun h => Except.noConfusion h⟩

/-- C1 (amended): the startup load returns the empty list when the persisted
value is missing or an empty array, installs a well-formed non-empty array,
and fails with an exception when the persisted value is malformed JSON. -/
theorem loadTodos_spec (xs : List JVal) (h : xs ≠ []) :
    loadTodos Slot.absent = Except.ok (JVal.jarr []) ∧
    loadTodos (Slot.valid (JVal.jarr [])) = Except.ok (JVal.jarr []) ∧
    loadTodos (Slot.valid (JVal.jarr xs)) = Except.ok (JVal.jarr xs) ∧
    loadTodos Slot.invalid = Except.error () := by
  refine ⟨rfl, rfl, ?_, rfl⟩
  have hlen : 0 < xs.length := List.length_pos.mpr h
  simp [loadTodos, parseSlot, truthy, jsLengthGtZero, hlen]

/-- Witness for C1 (amended) at the one-element array. -/
theorem loadTodos_spec_witness :
    loadTodos Slot.absent = Except.ok (JVal.jarr []) ∧
    loadTodos (Slot.valid (JVal.jarr [])) = Except.ok (JVal.jarr []) ∧
    loadTodos (Slot.valid (JVal.jarr [JVal.null])) = Except.ok (JVal.jarr [JVal.null]) ∧
    loadTodos Slot.invalid = Except.error () :=
  loadTodos_spec [JVal.null] (List.cons_ne_nil _ _)

/-- C2: `add(t)` at time `now` yields a list one longer than the input, equal
to the input on its first `len(L)` positions, whose last element is the record
`{ id := now, text := t, isCompleted := false }`. -/
theorem addTodo_spec (L : List Todo) (t : String) (now : Nat) :
    (addTodo now t L).length = L.length + 1 ∧
    (addTodo now t L).take L.length = L ∧
    (addTodo now t L).getLast? = some { id := now, text := t, isCompleted := false } := by
  refine ⟨by simp [addTodo], ?_, ?_⟩
  · simp [addTodo, List.take_left]
  · simp [addTodo]

/-- C3: on a list containing a record with id `X`, `completeTodo X` preserves
length and rewrites each position pointwise: the record with id `X` keeps its
id and text with `isCompleted` negated, every other record is unchanged. -/
theorem completeTodo_spec (L : List Todo) (X : Nat) (h : X ∈ L.map Todo.id) :
    (completeTodo X L).length = L.length ∧
    ∀ j, (completeTodo X L).get? j =
      (L.get? j).map fun r =>
        if r.id = X then { r with isCompleted := !r.isCompleted } else r :=
  ⟨by simp [completeTodo], fun j => by simp [completeTodo, List.get?_map]⟩

/-- Witness for C3 on a concrete two-element list. -/
theorem completeTodo_spec_witness :
    (completeTodo 1 sampleTodos).length = sampleTodos.length ∧
    (completeTodo 1 sampleTodos).get? 0 =
      some { id := 1, text := "a", isCompleted := true } ∧
    (completeTodo 1 sampleTodos).get? 1 =
      some { id := 2, text := "b", isCompleted := true } := by
  have h := completeTodo_spec sampleTodos 1 (by decide)
  refine ⟨h.1, ?_, ?_⟩
  · have := h.2 0
    simpa [sampleTodos] using this
  · have := h.2 1
    simpa [sampleTodos] using this

/-- C4: under the data model's id-uniqueness invariant, deleting a present id
shortens the list by one, removes every record with that id, and keeps the
remaining records in order (the result is a sublist); deleting an absent id is
the identity. -/
theorem deleteTodo_spec (L : List Todo) (X : Nat) (hnd : (L.map Todo.id).Nodup) :
    (X ∈ L.map Todo.id →
      (deleteTodo X L).length = L.length - 1 ∧
      X ∉ (deleteTodo X L).map Todo.id ∧
      (deleteTodo X L).Sublist L) ∧
    (X ∉ L.map Todo.id → deleteTodo X L = L) := by
  constructor
  · intro hX
    refine ⟨deleteTodo_length_of_mem L X hnd hX, ?_, ?_⟩
    · intro hmem
      rcases List.mem_map.mp hmem with ⟨r, hr, hid⟩
      have hpred := List.of_mem_filter hr
      rw [bne_iff_ne] at hpred
      exact hpred hid
    · exact List.filter_sublist L
  · exact deleteTodo_of_not_mem L X

/-- Witness for C4 on a concrete two-element list: a present id and an absent
one. -/
theorem deleteTodo_spec_witness :
    (deleteTodo 1 sampleTodos).length = sampleTodos.length - 1 ∧
    1 ∉ (deleteTodo 1 sampleTodos).map Todo.id ∧
    (deleteTodo 1 sampleTodos).Sublist sampleTodos ∧
    deleteTodo 99 sampleTodos = sampleTodos := by
  have h1 := deleteTodo_spec sampleTodos 1 (by decide)
  have h99 := deleteTodo_spec sampleTodos 99 (by decide)
  obtain ⟨ha, hb, hc⟩ := h1.1 (by decide)
  exact ⟨ha, hb, hc, h99.2 (by decide)⟩

/-- C5: `update(X, patch)` rewrites each position pointwise: the record whose
id is `X` becomes the record with id `X` and the non-id fields of the patch,
every other record is unchanged; when no record has id `X` the list is
returned unchanged; length is always preserved. -/
theorem updateTodo_spec (L : List Todo) (X : Nat) (p : Patch) :
    (X ∉ L.map Todo.id → updateTodo X p L = L) ∧
    (updateTodo X p L).length = L.length ∧
    ∀ j, (updateTodo X p L).get? j =
      (L.get? j).map fun r =>
        if r.id = X then { id := X, text := p.text, isCompleted := p.isCompleted } else r := by
  have hfg : (fun r : Todo =>
        if r.id = X then
          { id := r.id, text := p.text, isCompleted := p.isCompleted } else r) =
      (fun r : Todo =>
        if r.id = X then
          { id := X, text := p.text, isCompleted := p.isCompleted } else r) := by
    funext r
    by_cases h : r.id = X <;> simp [h]
  refine ⟨?_, by simp [updateTodo], ?_⟩
  · intro hX
    exact map_ite_id_of_not_mem L X _ hX
  · intro j
    rw [updateTodo, hfg, List.get?_map]

/-- Witness for C5 on a concrete two-element list: an absent id leaves the
list unchanged, a present id is patched in place with its id preserved. -/
theorem updateTodo_spec_witness :
    updateTodo 99 samplePatch sampleTodos = sampleTodos ∧
    (updateTodo 1 samplePatch sampleTodos).length = sampleTodos.length ∧
    (updateTodo 1 samplePatch sampleTodos).get? 0 =
      some { id := 1, text := "x", isCompleted := true } ∧
    (updateTodo 1 samplePatch sampleTodos).get? 1 =
      some { id := 2, text := "b", isCompleted := true } := by
  have h99 := updateTodo_spec sampleTodos 99 samplePatch
  have h1 := updateTodo_spec sampleTodos 1 samplePatch
  refine ⟨h99.1 (by decide), h1.2.1, ?_, ?_⟩
  · have := h1.2.2 0
    simpa [sampleTodos, samplePatch] using this
  · have := h1.2.2 1
    simpa [sampleTodos, samplePatch] using this

/-- C6: saving a todo list to the persisted slot and running the startup load
on the result yields a JSON value that decodes back to the original list;
the round trip is the identity on lists (the empty list stays empty because
the load keeps its initial empty state when the parsed array has length 0). -/
theorem save_load_roundtrip (L : List Todo) :
    ∃ v, loadTodos (saveTodos L) = Except.ok v ∧ decodeTodos v = some L := by
  cases L with
  | nil => exact ⟨JVal.jarr [], rfl, rfl⟩
  | cons a l =>
      refine ⟨encodeTodos (a :: l), ?_, ?_⟩
      · simp [loadTodos, parseSlot, saveTodos, truthy, encodeTodos, jsLengthGtZero]
      · simp only [encodeTodos, decodeTodos]
        exact decodeList_map_encodeTodo (a :: l)

/-- C7: the four store operations are total on every input list and argument,
each yielding a defined result list: add grows the length by one, update and
toggle preserve it, delete never grows it. In the pure embedding each
operation is a function returning a new list value, so the input list is
never mutated. -/
theorem todoOps_total (L : List Todo) (now X : Nat) (t : String) (p : Patch) :
    (addTodo now t L).length = L.length + 1 ∧
    (updateTodo X p L).length = L.length ∧
    (completeTodo X L).length = L.length ∧
    (deleteTodo X L).length ≤ L.length := by
  refine ⟨by simp [addTodo], by simp [updateTodo], by simp [completeTodo], ?_⟩
  simpa [deleteTodo] using List.length_filter_le _ L

/-- C8 counterexample: two adds carrying the same `Date.now()` timestamp
produce duplicate ids, so id-uniqueness is not preserved by add within a
single timestamp. -/
theorem addTodo_same_timestamp_collision :
    ¬ (((addTodo 5 "b" (addTodo 5 "a" ([] : List Todo))).map Todo.id).Nodup) := by
  decide

/-- C8 (amended): starting from a list with pairwise-distinct ids, update,
delete and toggle always preserve distinctness, and add preserves it exactly
when the current timestamp differs from every id already in the list; two
adds within the same timestamp collide. -/
theorem todoOps_preserve_id_nodup (L : List Todo) (now X : Nat) (t : String)
    (p : Patch) (hnd : (L.map Todo.id).Nodup) :
    ((updateTodo X p L).map Todo.id).Nodup ∧
    ((deleteTodo X L).map Todo.id).Nodup ∧
    ((completeTodo X L).map Todo.id).Nodup ∧
    (now ∉ L.map Todo.id → ((addTodo now t L).map Todo.id).Nodup) := by
  refine ⟨?_, ?_, ?_, ?_⟩
  · rw [updateTodo, ids_map_of_id_preserving]
    · exact hnd
    · intro r
      by_cases h : r.id = X <;> simp [h]
  · have hsub : ((deleteTodo X L).map Todo.id).Sublist (L.map Todo.id) :=
      List.Sublist.map Todo.id (List.filter_sublist L)
    exact hnd.sublist hsub
  · rw [completeTodo, ids_map_of_id_preserving]
    · exact hnd
    · intro r
      by_cases h : r.id = X <;> simp [h]
  · intro hnow
    have : (addTodo now t L).map Todo.id = L.map Todo.id ++ [now] := by
      simp [addTodo]
    rw [this]
    exact hnd.append (List.nodup_singleton now)
      ((List.disjoint_singleton).mpr hnow)

/-- Witness for C8 (amended) on a concrete two-element list with a fresh
timestamp. -/
theorem todoOps_preserve_id_nodup_witness :
    ((updateTodo 1 samplePatch sampleTodos).map Todo.id).Nodup ∧
    ((deleteTodo 1 sampleTodos).map Todo.id).Nodup ∧
    ((completeTodo 1 sampleTodos).map Todo.id).Nodup ∧
    ((addTodo 3 "c" sampleTodos).map Todo.id).Nodup := by
  have h := todoOps_preserve_id_nodup sampleTodos 3 1 "c" samplePatch (by decide)
  exact ⟨h.1, h.2.1, h.2.2.1, h.2.2.2 (by decide)⟩

/-- C9: the default theme context carries `themeMode = "loght"`, which is
neither `"light"` nor `"dark"`, so a consumer rendered without a provider
computes `checked = (themeMode === "dark") = false` in `ThemeBtn`. -/
theorem themeDefault_spec :
    themeContextDefault.themeMode = "loght" ∧
    themeContextDefault.themeMode ≠ "light" ∧
    themeContextDefault.themeMode ≠ "dark" ∧
    themeBtnChecked themeContextDefault = false := by
  decide

/-- C10: the value `Login.handleSubmit` passes to `setUser` depends only on
the username input: two states agreeing on username and differing arbitrarily
in password submit the same user value. -/
theorem handleSubmit_password_independent (s1 s2 : LoginState)
    (h : s1.username = s2.username) : handleSubmit s1 = handleSubmit s2 :=
  h

/-- Witness for C10: same username, different passwords, same submitted
value. -/
theorem handleSubmit_password_independent_witness :
    ({ username := "alice", password := "pw1" } : LoginState).username =
      ({ username := "alice", password := "pw2" } : LoginState).username ∧
    handleSubmit { username := "alice", password := "pw1" } =
      handleSubmit { username := "alice", password := "pw2" } :=
  ⟨rfl, handleSubmit_password_independent
    { username := "alice", password := "pw1" }
    { username := "alice", password := "pw2" } rfl⟩
